import Mathlib

/-!
Shallow embedding of `src/rr10.py` (corpg/raspnfc): the `Message` frame class
(a Python `bytearray` subclass with a length/command/parameters/checksum
layout) and the `RR10` link-handshake driver.

A Python `bytearray` is modelled as a `List Nat` whose entries are meant to
lie in `[0, 256)`; operations that Python performs in place are modelled by
returning the bytearray's state after the call together with an optional
raised error.  Python exceptions are modelled by the `PyErr` kind that the
raising statement produces.
-/

/-- Error kinds raised by the source.  The six `Exception(...)` messages of
`Message` and the built-in exceptions that particular statements raise
(`IndexError` from `self[0]` on an empty bytearray, `ValueError` from
`bytearray(negative)`, `OverflowError` from `int.to_bytes` on a sum `≥ 2^16`,
`ValueError` from `bytearray(seq)` with an entry `≥ 256`, `AttributeError`
from calling the undefined `prepare_to_receive`, `TypeError` from
formatting a `bytes` object with the format spec `{:#x}`). -/
inductive PyErr where
  | messageTooLong
  | lengthMismatch
  | checksumMismatch
  | unknownCommand
  | parametersNotBytearray
  | tooManyParameters
  | negativeCount
  | indexError
  | overflowError
  | byteOutOfRange
  | attributeError
  | typeErrorFormat
deriving DecidableEq, Repr

/-- A `Message` is a `bytearray`: a list of byte values. -/
abbrev Message : Type := List Nat

/-- A value passed to the `parameters` setter: either a `bytearray` or a
value of any other runtime type (rejected by the `isinstance` check). -/
inductive PyValue where
  | bytearrayV (data : List Nat)
  | otherV
deriving DecidableEq, Repr

namespace Message

/-- `Message.MIN_LENGTH`: 1 byte length, 1 byte command, 2 bytes checksum. -/
def MIN_LENGTH : Nat := 4

/-- `Message.MAX_LENGTH`. -/
def MAX_LENGTH : Nat := 255

/-- `Message.MAX_PARAMETERS`. -/
def MAX_PARAMETERS : Nat := 251

/-- The values of the `COMMAND_*` class attributes, in source order
(`get_commands().values()`); `0x08` and `0x0F` each appear twice because the
source aliases them across tag families. -/
def commands : List Nat :=
  [0x01, 0x02, 0x03, 0x06, 0x07, 0x08, 0x09, 0x08, 0x0F, 0x0F,
   0x0A, 0x0B, 0x0C, 0x0D, 0x0E, 0x20, 0x21]

/-- Python `n.to_bytes(2, 'little')`: succeeds with the two little-endian
bytes when `n < 2^16` and raises `OverflowError` otherwise. -/
def to_bytes2LE (n : Nat) : Except PyErr (List Nat) :=
  if n < 65536 then .ok [n % 256, n / 256] else .error .overflowError

/-- `self[:INDEX_CHECKSUM]`, i.e. `self[:-2]`: every byte the checksum
covers. -/
def checked_region (m : Message) : List Nat := m.take (m.length - 2)

/-- The `checksum` property: `self[INDEX_CHECKSUM:]`, i.e. `self[-2:]`. -/
def checksum (m : Message) : List Nat := m.drop (m.length - 2)

/-- `Message.get_checksum`: `sum(self[:-2]).to_bytes(2, 'little')`. -/
def get_checksum (m : Message) : Except PyErr (List Nat) :=
  to_bytes2LE (checked_region m).sum

/-- `Message._update_checksum`: `self[-2:] = self.get_checksum()`.  If
`get_checksum` raises, the bytearray is unchanged at the point of the
raise. -/
def update_checksum (m : Message) : Message × Option PyErr :=
  match get_checksum m with
  | .ok cs => (m.take (m.length - 2) ++ cs, none)
  | .error e => (m, some e)

/-- `Message._update_length`: `self[0] = len(self)` then
`self._update_checksum()`.  (The store `self[0] = len(self)` would raise
`ValueError` for `len(self) > 255`, but its only caller, the `parameters`
setter, has already bounded the new length by `MAX_PARAMETERS + MIN_LENGTH =
255`, so the plain `List.set` is exact on every reachable call.) -/
def update_length (m : Message) : Message × Option PyErr :=
  update_checksum (m.set 0 m.length)

/-- The slice assignment `self[INDEX_PARAMETERS:INDEX_CHECKSUM] = value`
(`self[2:-2] = value`), with Python's clamping of slice bounds
(`stop = max(start, len - 2)`), followed by `self._update_length()`. -/
def set_params_body (m : Message) (value : List Nat) : Message × Option PyErr :=
  update_length (m.take 2 ++ value ++ m.drop (max (m.length - 2) 2))

/-- The `parameters` setter.  Order of the source checks: `isinstance`
(raises for any non-bytearray), `MAX_PARAMETERS`, then
`self += bytearray((len(value) + MIN_LENGTH) - len(self))` when the sizes
differ — which appends zero padding when the difference is positive and
raises `ValueError: negative count` from `bytearray(negative)` when the new
payload is shorter — then the slice assignment and `_update_length`.
(The `_parameters` view cache that the setter also refreshes holds no byte
content and is not modelled.) -/
def set_parameters (m : Message) (v : PyValue) : Message × Option PyErr :=
  match v with
  | .otherV => (m, some .parametersNotBytearray)
  | .bytearrayV value =>
    if MAX_PARAMETERS < value.length then (m, some .tooManyParameters)
    else if value.length + MIN_LENGTH = m.length then set_params_body m value
    else if m.length < value.length + MIN_LENGTH then
      set_params_body (m ++ List.replicate (value.length + MIN_LENGTH - m.length) 0) value
    else (m, some .negativeCount)

/-- The `command` setter: raise for an opcode outside
`get_commands().values()`, otherwise `self[1] = command` then
`self._update_checksum()`. -/
def set_command (m : Message) (c : Nat) : Message × Option PyErr :=
  if c ∈ commands then update_checksum (m.set 1 c)
  else (m, some .unknownCommand)

/-- The `command` getter `self[1]` (`none` models the `IndexError` a
too-short bytearray would raise). -/
def command (m : Message) : Option Nat := m.get? 1

/-- The `parameters` getter: the bytes of `self[2:-2]`. -/
def parameters (m : Message) : List Nat := (m.drop 2).take (m.length - 4)

/-- `Message.__init__`, bytes branch (the spec's `from_bytes`): copy the raw
bytes, then `length > MAX_LENGTH` check, then `length != self.length`
(where the `length` property reads `self[0]`, raising `IndexError` on an
empty bytearray), then compare `self.get_checksum()` with the stored
`self.checksum`. -/
def from_bytes (raw : List Nat) : Except PyErr Message :=
  if MAX_LENGTH < raw.length then .error .messageTooLong
  else
    match raw.get? 0 with
    | none => .error .indexError
    | some l =>
      if raw.length ≠ l then .error .lengthMismatch
      else
        match get_checksum raw with
        | .error e => .error e
        | .ok cs => if cs ≠ checksum raw then .error .checksumMismatch else .ok raw

/-- `Message.__init__`, command branch (the spec's `new`): allocate a
zero-filled bytearray of `MIN_LENGTH + len(parameters)` bytes, run the
`command` setter, evaluate `bytearray(parameters)` (raising `ValueError`
when an entry is not a byte), and run the `parameters` setter.  A raise
from either setter aborts construction. -/
def new (c : Nat) (params : List Nat) : Except PyErr Message :=
  match set_command (List.replicate (MIN_LENGTH + params.length) 0) c with
  | (_, some e) => .error e
  | (m1, none) =>
    if params.all (· < 256) then
      match set_parameters m1 (.bytearrayV params) with
      | (m2, none) => .ok m2
      | (_, some e) => .error e
    else .error .byteOutOfRange

/-- `Message.version()`: `cls(cls.COMMAND_GET_VERSION)`. -/
def version : Except PyErr Message := new 0x03 []

/-- `Message.test()`: `cls(cls.COMMAND_CONNECTION, 0x05, 0x0A)`. -/
def test : Except PyErr Message := new 0x01 [0x05, 0x0A]

/-- Two-byte little-endian encoding of a 16-bit value, as the spec words it:
the stored checksum must be this encoding of the byte sum mod `65536`. -/
def le16 (n : Nat) : List Nat := [n % 256, n / 256 % 256]

/-- The spec's checksum invariant: the stored two checksum bytes equal the
little-endian encoding of `sum(bytes[0 .. len-2]) mod 65536`. -/
def ChecksumOK (m : Message) : Prop :=
  checksum m = le16 ((checked_region m).sum % 65536)

end Message

namespace RR10

/-- The serial transport collaborator: a pending input byte stream consumed
by `read` and a log of every byte handed to `write`.  `write` transfers the
whole buffer and reports the full count, `read n` yields the next `n`
pending bytes. -/
structure Serial where
  toRead : List Nat
  written : List Nat
deriving DecidableEq, Repr

/-- `serial.read(n)`. -/
def read (s : Serial) (n : Nat) : List Nat × Serial :=
  (s.toRead.take n, ⟨s.toRead.drop n, s.written⟩)

/-- `serial.write(data) -> count`. -/
def write (s : Serial) (data : List Nat) : Nat × Serial :=
  (data.length, ⟨s.toRead, s.written ++ data⟩)

/-- `RR10.prepare_to_send`: write the sentinel `0x55`, block-read one byte;
on `0xAA` return `True`.  On any other byte the diagnostic
`print('Received: {:#x} instead of 0xAA'.format(s))` raises `TypeError`
(`s` is a `bytes` object, which rejects the non-empty format spec `#x`), so
the `return False` on the next line is unreachable. -/
def prepare_to_send (s : Serial) : Except PyErr Bool × Serial :=
  let w := write s [0x55]
  let r := read w.2 1
  if r.1 = [0xAA] then (.ok true, r.2)
  else (.error .typeErrorFormat, r.2)

/-- `RR10.send`: `if self.prepare_to_send(): return self.serial.write(message)`
else `return 0`.  A raise inside `prepare_to_send` propagates. -/
def send (s : Serial) (message : List Nat) : Except PyErr Nat × Serial :=
  match prepare_to_send s with
  | (.ok true, s1) => let w := write s1 message; (.ok w.1, w.2)
  | (.ok false, s1) => (.ok 0, s1)
  | (.error e, s1) => (.error e, s1)

/-- `RR10.ready_to_receive`: block-read one byte; on `0xA5` write the
sentinel `0x5A` and return whether the reported count is `1`.  On any other
byte the diagnostic `print('Received: {:#x} instead of 0xA5'.format(s))`
raises `TypeError` before the `return False` line. -/
def ready_to_receive (s : Serial) : Except PyErr Bool × Serial :=
  let r := read s 1
  if r.1 = [0xA5] then
    let w := write r.2 [0x5A]
    (.ok (decide (1 = w.1)), w.2)
  else (.error .typeErrorFormat, r.2)

/-- `RR10.receive`: the body's first expression is
`self.prepare_to_receive()`, but neither `RR10` nor its base `NFCSerial`
defines a method of that name (the defined handshake method is
`ready_to_receive`), so every call raises `AttributeError` before touching
the transport; the rest of the body (the handshake, the length read of one
byte, the read of `int(length.hex(), 16)` further bytes and the `Message`
construction) is dead code. -/
def receive (s : Serial) : Except PyErr Message × Serial :=
  (.error .attributeError, s)

end RR10

namespace Message

lemma commands_lt_256 : ∀ c ∈ commands, c < 256 := by decide

lemma sum_le_mul_255 (l : List Nat) (hb : ∀ b ∈ l, b < 256) :
    l.sum ≤ l.length * 255 := by
  have h := List.sum_le_card_nsmul l 255 fun x hx => Nat.lt_succ_iff.mp (hb x hx)
  simpa [smul_eq_mul] using h

lemma sum_lt_of_bytes (l : List Nat) (hb : ∀ b ∈ l, b < 256)
    (hl : l.length ≤ 253) : l.sum < 65536 := by
  have h := sum_le_mul_255 l hb
  have h2 : l.length * 255 ≤ 253 * 255 := Nat.mul_le_mul_right 255 hl
  omega

lemma le16_eq_of_lt {n : Nat} (h : n < 65536) :
    le16 (n % 65536) = [n % 256, n / 256] := by
  unfold le16
  have hdiv : n / 256 < 256 := (Nat.div_lt_iff_lt_mul (by omega)).mpr (by omega)
  rw [Nat.mod_eq_of_lt h, Nat.mod_eq_of_lt hdiv]

lemma to_bytes2LE_ok {n : Nat} {cs : List Nat} (h : to_bytes2LE n = .ok cs) :
    n < 65536 ∧ cs = le16 (n % 65536) := by
  unfold to_bytes2LE at h
  split at h
  · next hlt =>
    refine ⟨hlt, ?_⟩
    cases h
    exact (le16_eq_of_lt hlt).symm
  · exact absurd h (by simp)

lemma get_checksum_eval (m : Message) (hlen : m.length ≤ 255)
    (hb : ∀ b ∈ m, b < 256) :
    (checked_region m).sum < 65536 ∧
    get_checksum m = .ok (le16 ((checked_region m).sum % 65536)) := by
  have h1 : (checked_region m).length ≤ 253 := by
    unfold checked_region
    rw [List.length_take]
    omega
  have hs : (checked_region m).sum < 65536 :=
    sum_lt_of_bytes _ (fun b hbm => hb b (List.mem_of_mem_take hbm)) h1
  refine ⟨hs, ?_⟩
  unfold get_checksum to_bytes2LE
  rw [if_pos hs, le16_eq_of_lt hs]

lemma update_checksum_ok {m m1 : Message} (h : update_checksum m = (m1, none)) :
    ChecksumOK m1 := by
  unfold update_checksum at h
  split at h
  · next cs hcs =>
    rw [Prod.mk.injEq] at h
    obtain ⟨h1, -⟩ := h
    subst h1
    unfold get_checksum at hcs
    obtain ⟨hlt, rfl⟩ := to_bytes2LE_ok hcs
    unfold ChecksumOK checksum checked_region
    have hlen2 : ∀ k : Nat, (le16 k).length = 2 := fun _ => rfl
    rw [List.length_append, hlen2, Nat.add_sub_cancel, List.drop_left,
      List.take_left]
  · simp at h

lemma update_checksum_none (m : Message) (hlen : m.length ≤ 255)
    (hb : ∀ b ∈ m, b < 256) : (update_checksum m).2 = none := by
  obtain ⟨-, hg⟩ := get_checksum_eval m hlen hb
  unfold update_checksum
  rw [hg]

lemma update_checksum_append (pre t : List Nat) (ht : t.length = 2)
    (hs : pre.sum < 65536) :
    update_checksum (pre ++ t) = (pre ++ [pre.sum % 256, pre.sum / 256], none) := by
  have hlen : (pre ++ t).length - 2 = pre.length := by
    rw [List.length_append, ht]
    omega
  have hg : get_checksum (pre ++ t) = .ok [pre.sum % 256, pre.sum / 256] := by
    unfold get_checksum checked_region to_bytes2LE
    rw [hlen, List.take_left, if_pos hs]
  unfold update_checksum
  rw [hg, hlen, List.take_left]

lemma set_params_body_eq (x y : Nat) (mid t v : List Nat) (ht : t.length = 2)
    (hmid : mid.length = v.length)
    (hS : v.length + 4 + (y + v.sum) < 65536) :
    set_params_body (x :: y :: (mid ++ t)) v =
      ((v.length + 4) :: y :: (v ++ [(v.length + 4 + (y + v.sum)) % 256,
        (v.length + 4 + (y + v.sum)) / 256]), none) := by
  have hsub : (x :: y :: (mid ++ t)).length - 2 = v.length + 2 := by
    simp only [List.length_cons, List.length_append, ht, hmid]
    omega
  have hmax : max ((x :: y :: (mid ++ t)).length - 2) 2 = v.length + 2 := by
    rw [hsub]
    exact Nat.max_eq_left (by omega)
  have hdrop : (x :: y :: (mid ++ t)).drop (v.length + 2) = t := by
    have hshape : x :: y :: (mid ++ t) = (x :: y :: mid) ++ t := by simp
    rw [hshape]
    exact List.drop_left' (by simp only [List.length_cons]; omega)
  have htake : (x :: y :: (mid ++ t)).take 2 = [x, y] := rfl
  unfold set_params_body
  rw [hmax, hdrop, htake]
  unfold update_length
  have harg : [x, y] ++ v ++ t = x :: y :: (v ++ t) := by simp
  rw [harg]
  have hlen2 : (x :: y :: (v ++ t)).length = v.length + 4 := by
    simp only [List.length_cons, List.length_append]
    omega
  rw [hlen2]
  have hset : (x :: y :: (v ++ t)).set 0 (v.length + 4)
      = (v.length + 4) :: y :: (v ++ t) := rfl
  rw [hset]
  have hshape2 : (v.length + 4) :: y :: (v ++ t)
      = ((v.length + 4) :: y :: v) ++ t := by simp
  rw [hshape2]
  rw [update_checksum_append _ _ ht (by simp only [List.sum_cons]; omega)]
  simp only [List.sum_cons, List.cons_append]

lemma set_params_body_none (m : Message) (v : List Nat)
    (hlen : m.length = v.length + 4) (hv251 : v.length ≤ 251)
    (hm : ∀ b ∈ m, b < 256) (hv : ∀ b ∈ v, b < 256) :
    (set_params_body m v).2 = none := by
  unfold set_params_body update_length
  have hmin : min 2 m.length = 2 := Nat.min_eq_left (by omega)
  have hmax : max (m.length - 2) 2 = m.length - 2 := Nat.max_eq_left (by omega)
  have hal : (m.take 2 ++ v ++ m.drop (max (m.length - 2) 2)).length
      = v.length + 4 := by
    simp only [List.length_append, List.length_take, List.length_drop, hmax,
      hmin]
    omega
  apply update_checksum_none
  · rw [List.length_set, hal]
    omega
  · intro b hbm
    rcases List.mem_or_eq_of_mem_set hbm with hin | rfl
    · rcases List.mem_append.mp hin with h1 | h2
      · rcases List.mem_append.mp h1 with h3 | h4
        · exact hm b (List.mem_of_mem_take h3)
        · exact hv b h4
      · exact hm b (List.mem_of_mem_drop h2)
    · rw [hal]
      omega

lemma set_params_body_ok {m m1 : Message} {v : List Nat}
    (h : set_params_body m v = (m1, none)) : ChecksumOK m1 := by
  unfold set_params_body update_length at h
  exact update_checksum_ok h

lemma set_parameters_ok {m m1 : Message} {v : PyValue}
    (h : set_parameters m v = (m1, none)) : ChecksumOK m1 := by
  cases v with
  | otherV => simp [set_parameters] at h
  | bytearrayV value =>
    simp only [set_parameters] at h
    split at h
    · simp at h
    · split at h
      · exact set_params_body_ok h
      · split at h
        · exact set_params_body_ok h
        · simp at h

lemma set_command_ok {m m1 : Message} {c : Nat}
    (h : set_command m c = (m1, none)) : ChecksumOK m1 := by
  unfold set_command at h
  split at h
  · exact update_checksum_ok h
  · simp at h

lemma from_bytes_ok {raw m : Message} (h : from_bytes raw = .ok m) :
    m = raw ∧ ChecksumOK raw := by
  unfold from_bytes at h
  split at h
  · exact absurd h (by simp)
  · split at h
    · exact absurd h (by simp)
    · next l heq =>
      split at h
      · exact absurd h (by simp)
      · split at h
        · exact absurd h (by simp)
        · next cs hgc =>
          split at h
          · exact absurd h (by simp)
          · next hne =>
            have hm : m = raw := by
              injection h with h2
              exact h2.symm
            unfold get_checksum at hgc
            obtain ⟨hlt, rfl⟩ := to_bytes2LE_ok hgc
            exact ⟨hm, (not_not.mp hne).symm⟩

lemma from_bytes_ok_of (raw : List Nat) (hlen : raw.length ≤ 255)
    (h0 : raw.get? 0 = some raw.length)
    (hck : checksum raw = le16 ((checked_region raw).sum % 65536))
    (hb : ∀ b ∈ raw, b < 256) :
    from_bytes raw = .ok raw := by
  obtain ⟨hs, hg⟩ := get_checksum_eval raw hlen hb
  have h255 : ¬ (MAX_LENGTH < raw.length) := by
    simp only [MAX_LENGTH]
    omega
  have hne : ¬ (raw.length ≠ raw.length) := by simp
  have hcs : ¬ (le16 ((checked_region raw).sum % 65536) ≠ checksum raw) := by
    simp [hck]
  simp only [from_bytes, if_neg h255, h0, if_neg hne, hg, if_neg hcs]

lemma new_eq (c : Nat) (p : List Nat) (hc : c ∈ commands) (hp : p.length ≤ 251)
    (hb : ∀ b ∈ p, b < 256) :
    new c p = .ok ((p.length + 4) :: c ::
      (p ++ [(p.length + 4 + (c + p.sum)) % 256,
             (p.length + 4 + (c + p.sum)) / 256])) := by
  have hc256 : c < 256 := commands_lt_256 c hc
  have hps : p.sum ≤ p.length * 255 := sum_le_mul_255 p hb
  have hS : p.length + 4 + (c + p.sum) < 65536 := by omega
  have hrep : (List.replicate (MIN_LENGTH + p.length) 0).set 1 c
      = (0 :: c :: List.replicate p.length 0) ++ List.replicate 2 0 := by
    have h4 : MIN_LENGTH + p.length = 2 + (p.length + 2) := by
      simp only [MIN_LENGTH]
      omega
    rw [h4, List.replicate_add, List.replicate_add]
    rfl
  have hsum0 : (0 :: c :: List.replicate p.length 0).sum = c := by simp
  have hstep1 : set_command (List.replicate (MIN_LENGTH + p.length) 0) c
      = ((0 :: c :: List.replicate p.length 0) ++ [c, 0], none) := by
    unfold set_command
    rw [if_pos hc, hrep,
      update_checksum_append (0 :: c :: List.replicate p.length 0)
        (List.replicate 2 0) rfl (by rw [hsum0]; omega), hsum0,
      Nat.mod_eq_of_lt hc256, Nat.div_eq_of_lt hc256]
  have hall : (p.all fun x => decide (x < 256)) = true := by
    simp only [List.all_eq_true, decide_eq_true_eq]
    exact hb
  have hm1len : ((0 :: c :: List.replicate p.length 0) ++ [c, 0]).length
      = p.length + 4 := by
    simp only [List.length_append, List.length_cons, List.length_replicate,
      List.length_nil]
  have hstep2 : set_parameters ((0 :: c :: List.replicate p.length 0) ++ [c, 0])
      (.bytearrayV p)
      = ((p.length + 4) :: c :: (p ++ [(p.length + 4 + (c + p.sum)) % 256,
          (p.length + 4 + (c + p.sum)) / 256]), none) := by
    simp only [set_parameters]
    rw [if_neg (by simp only [MAX_PARAMETERS]; omega),
      if_pos (by rw [hm1len]; simp [MIN_LENGTH])]
    have hshape : (0 :: c :: List.replicate p.length 0) ++ [c, 0]
        = 0 :: c :: (List.replicate p.length 0 ++ [c, 0]) := rfl
    rw [hshape]
    exact set_params_body_eq 0 c _ _ p rfl (List.length_replicate _ _) hS
  simp only [new, hstep1, hall, if_true, hstep2]

lemma built_from_bytes (c : Nat) (p : List Nat) (hc256 : c < 256)
    (hp : p.length ≤ 251) (hb : ∀ b ∈ p, b < 256) :
    from_bytes ((p.length + 4) :: c ::
        (p ++ [(p.length + 4 + (c + p.sum)) % 256,
               (p.length + 4 + (c + p.sum)) / 256]))
      = .ok ((p.length + 4) :: c ::
        (p ++ [(p.length + 4 + (c + p.sum)) % 256,
               (p.length + 4 + (c + p.sum)) / 256])) := by
  have hps : p.sum ≤ p.length * 255 := sum_le_mul_255 p hb
  have hS : p.length + 4 + (c + p.sum) < 65536 := by omega
  have hdiv : (p.length + 4 + (c + p.sum)) / 256 < 256 :=
    (Nat.div_lt_iff_lt_mul (by omega)).mpr (by omega)
  have hMlen : ((p.length + 4) :: c ::
      (p ++ [(p.length + 4 + (c + p.sum)) % 256,
             (p.length + 4 + (c + p.sum)) / 256])).length = p.length + 4 := by
    simp only [List.length_cons, List.length_append, List.length_nil]
  have hshape : (p.length + 4) :: c ::
      (p ++ [(p.length + 4 + (c + p.sum)) % 256,
             (p.length + 4 + (c + p.sum)) / 256])
      = ((p.length + 4) :: c :: p) ++ [(p.length + 4 + (c + p.sum)) % 256,
          (p.length + 4 + (c + p.sum)) / 256] := by simp
  have hprelen : ((p.length + 4) :: c :: p).length = p.length + 2 := by
    simp only [List.length_cons]
  have hpresum : ((p.length + 4) :: c :: p).sum = p.length + 4 + (c + p.sum) := by
    simp only [List.sum_cons]
  apply from_bytes_ok_of
  · rw [hMlen]
    omega
  · rw [hMlen]
    rfl
  · unfold checksum checked_region
    rw [hMlen, hshape]
    have h2 : p.length + 4 - 2 = p.length + 2 := by omega
    rw [h2, List.drop_left' hprelen, List.take_left' hprelen, hpresum,
      le16_eq_of_lt hS]
  · intro b hbm
    rw [hshape] at hbm
    rcases List.mem_append.mp hbm with h1 | h2
    · rcases List.mem_cons.mp h1 with rfl | h3
      · omega
      · rcases List.mem_cons.mp h3 with rfl | h4
        · exact hc256
        · exact hb b h4
    · rcases List.mem_cons.mp h2 with rfl | h5
      · exact Nat.mod_lt _ (by omega)
      · rcases List.mem_cons.mp h5 with rfl | h6
        · exact hdiv
        · simp at h6

lemma built_parameters (c : Nat) (p : List Nat) :
    parameters ((p.length + 4) :: c ::
        (p ++ [(p.length + 4 + (c + p.sum)) % 256,
               (p.length + 4 + (c + p.sum)) / 256])) = p := by
  unfold parameters
  have hMlen : ((p.length + 4) :: c ::
      (p ++ [(p.length + 4 + (c + p.sum)) % 256,
             (p.length + 4 + (c + p.sum)) / 256])).length = p.length + 4 := by
    simp only [List.length_cons, List.length_append, List.length_nil]
  rw [hMlen]
  have h4 : p.length + 4 - 4 = p.length := by omega
  rw [h4]
  have hdrop : ((p.length + 4) :: c ::
      (p ++ [(p.length + 4 + (c + p.sum)) % 256,
             (p.length + 4 + (c + p.sum)) / 256])).drop 2
      = p ++ [(p.length + 4 + (c + p.sum)) % 256,
              (p.length + 4 + (c + p.sum)) / 256] := rfl
  rw [hdrop]
  exact List.take_left' rfl

lemma new_ok {c : Nat} {p : List Nat} {m : Message}
    (h : new c p = .ok m) : ChecksumOK m := by
  unfold new at h
  split at h
  · simp at h
  · next m1 hsc =>
    split at h
    · split at h
      · next m2 hsp =>
        injection h with h2
        subst h2
        exact set_parameters_ok hsp
      · simp at h
    · simp at h

end Message

/-!
Claim theorems.
-/

/-- C1: after every completed construction or mutation call (`new`,
`from_bytes`, the `command` setter, the `parameters` setter) the stored
two checksum bytes equal `sum(bytes[0..len-2]) mod 65536` encoded
little-endian; there is no state after a completed mutation call in which
the frame content is inconsistent with its own checksum. -/
theorem c1_checksum_invariant_after_every_mutation :
    (∀ c p m, Message.new c p = .ok m → Message.ChecksumOK m) ∧
    (∀ raw m, Message.from_bytes raw = .ok m → Message.ChecksumOK m) ∧
    (∀ m c m1, Message.set_command m c = (m1, none) → Message.ChecksumOK m1) ∧
    (∀ m v m1, Message.set_parameters m v = (m1, none) →
      Message.ChecksumOK m1) := by
  refine ⟨?_, ?_, ?_, ?_⟩
  · intro c p m h
    exact Message.new_ok h
  · intro raw m h
    obtain ⟨rfl, hck⟩ := Message.from_bytes_ok h
    exact hck
  · intro m c m1 h
    exact Message.set_command_ok h
  · intro m v m1 h
    exact Message.set_parameters_ok h

/-- Witness for C1: the invariant concluded at concrete calls of all four
operations. -/
theorem c1_checksum_invariant_after_every_mutation_witness :
    Message.ChecksumOK [0x04, 0x03, 0x07, 0x00] ∧
    Message.ChecksumOK [0x03, 0x03, 0x00] ∧
    Message.ChecksumOK [0x04, 0x02, 0x06, 0x00] ∧
    Message.ChecksumOK [0x06, 0x03, 0x05, 0x0A, 0x18, 0x00] := by
  refine ⟨?_, ?_, ?_, ?_⟩
  · exact c1_checksum_invariant_after_every_mutation.1 3 [] _ rfl
  · exact c1_checksum_invariant_after_every_mutation.2.1 [3, 3, 0] _ rfl
  · exact c1_checksum_invariant_after_every_mutation.2.2.1 [4, 3, 7, 0] 2 _ rfl
  · exact c1_checksum_invariant_after_every_mutation.2.2.2 [4, 3, 7, 0]
      (.bytearrayV [5, 10]) _ rfl

/-- C2: for every registered command and every parameter byte sequence of
length at most 251, `new` succeeds, re-parsing its bytes (a `Message` is
itself the byte sequence) with `from_bytes` succeeds, and command and
parameters are reproduced identically. -/
theorem c2_new_from_bytes_roundtrip (c : Nat) (p : List Nat)
    (hc : c ∈ Message.commands) (hp : p.length ≤ 251)
    (hb : ∀ b ∈ p, b < 256) :
    ∃ m, Message.new c p = .ok m ∧ Message.from_bytes m = .ok m ∧
      Message.command m = some c ∧ Message.parameters m = p :=
  ⟨_, Message.new_eq c p hc hp hb,
    Message.built_from_bytes c p (Message.commands_lt_256 c hc) hp hb, rfl,
    Message.built_parameters c p⟩

/-- Witness for C2 at the command `0x03` with the one-byte payload `[0x05]`. -/
theorem c2_new_from_bytes_roundtrip_witness :
    0x03 ∈ Message.commands ∧
    ∃ m, Message.new 0x03 [0x05] = .ok m ∧ Message.from_bytes m = .ok m ∧
      Message.command m = some 0x03 ∧ Message.parameters m = [0x05] :=
  ⟨by decide,
    c2_new_from_bytes_roundtrip 0x03 [0x05] (by decide) (by decide) (by decide)⟩

/-- C3 (code bug): `RR10.receive` never performs the ready-to-receive
handshake; its first statement calls the undefined `prepare_to_receive`
(the method is named `ready_to_receive`), so every call — in particular one
on a transport whose next byte is the expected `0xA5` sentinel followed by
a well-formed frame — raises `AttributeError` with the transport untouched,
instead of returning a parsed frame. -/
theorem c3_receive_always_attribute_error :
    (∀ s : RR10.Serial, RR10.receive s = (.error .attributeError, s)) ∧
    RR10.receive ⟨[0xA5, 0x04, 0x03, 0x07, 0x00], []⟩
      = (.error .attributeError, ⟨[0xA5, 0x04, 0x03, 0x07, 0x00], []⟩) :=
  ⟨fun _ => rfl, rfl⟩

/-- C4 counterexample: `version()` does not produce the claimed bytes
`[0x04, 0x03, 0x04, 0x00]` (the checksum also covers the length byte). -/
theorem c4_version_counterexample :
    Message.version ≠ .ok [0x04, 0x03, 0x04, 0x00] := by
  intro h
  have h0 : Message.version = .ok [0x04, 0x03, 0x07, 0x00] := rfl
  rw [h0] at h
  injection h with h2
  exact absurd h2 (by decide)

/-- C4 as amended: `version()` produces exactly the bytes
`[0x04, 0x03, 0x07, 0x00]` (length 4, command 0x03, checksum
`0x04 + 0x03 = 0x07` little-endian). -/
theorem c4_version_bytes :
    Message.version = .ok [0x04, 0x03, 0x07, 0x00] := rfl

/-- C5 (code bug): shrinking the payload does not succeed: on the frame
built by `test()` (`[0x06, 0x01, 0x05, 0x0A, 0x16, 0x00]`, payload
`[0x05, 0x0A]`), setting an empty payload — length difference `d = -2` —
raises `ValueError` from `bytearray(negative)` and leaves the frame at its
old 6-byte size instead of resizing it. -/
theorem c5_set_parameters_shrink_raises :
    Message.test = .ok [0x06, 0x01, 0x05, 0x0A, 0x16, 0x00] ∧
    Message.set_parameters [0x06, 0x01, 0x05, 0x0A, 0x16, 0x00]
        (.bytearrayV [])
      = ([0x06, 0x01, 0x05, 0x0A, 0x16, 0x00], some .negativeCount) :=
  ⟨rfl, rfl⟩

/-- C6 counterexample: on the empty byte sequence (not longer than 255
bytes), `from_bytes` fails with the `IndexError` raised while reading the
length field, which is none of the three error kinds the claim permits. -/
theorem c6_empty_counterexample :
    Message.from_bytes [] = .error .indexError ∧
    PyErr.indexError ≠ PyErr.messageTooLong ∧
    PyErr.indexError ≠ PyErr.lengthMismatch ∧
    PyErr.indexError ≠ PyErr.checksumMismatch :=
  ⟨rfl, by decide, by decide, by decide⟩

/-- C6 as amended: `from_bytes` fails with `FrameTooLong` exactly when the
input exceeds 255 bytes; otherwise, on the empty input it fails with an
index error reading the length field; otherwise it fails with
`LengthMismatch` exactly when the embedded length byte disagrees with the
byte count, and otherwise with `ChecksumMismatch` exactly when the
recomputed checksum disagrees with the embedded one (succeeding when all
agree). -/
theorem c6_from_bytes_error_taxonomy (raw : List Nat)
    (hb : ∀ b ∈ raw, b < 256) :
    (255 < raw.length → Message.from_bytes raw = .error .messageTooLong) ∧
    (raw = [] → Message.from_bytes raw = .error .indexError) ∧
    (raw.length ≤ 255 → raw ≠ [] → raw.get? 0 ≠ some raw.length →
      Message.from_bytes raw = .error .lengthMismatch) ∧
    (raw.length ≤ 255 → raw.get? 0 = some raw.length →
      Message.checksum raw
        ≠ Message.le16 ((Message.checked_region raw).sum % 65536) →
      Message.from_bytes raw = .error .checksumMismatch) ∧
    (raw.length ≤ 255 → raw.get? 0 = some raw.length →
      Message.checksum raw
        = Message.le16 ((Message.checked_region raw).sum % 65536) →
      Message.from_bytes raw = .ok raw) := by
  refine ⟨?_, ?_, ?_, ?_, ?_⟩
  · intro h
    unfold Message.from_bytes
    rw [if_pos (by simp only [Message.MAX_LENGTH]; omega)]
  · intro h
    subst h
    rfl
  · intro h255 hne h0
    obtain ⟨a, l, rfl⟩ : ∃ a l, raw = a :: l := by
      cases raw with
      | nil => exact absurd rfl hne
      | cons a l => exact ⟨a, l, rfl⟩
    have hne2 : (a :: l).length ≠ a := by
      intro hh
      exact h0 (by rw [List.get?_cons_zero, hh])
    simp only [Message.from_bytes, List.get?_cons_zero,
      if_neg (show ¬ (Message.MAX_LENGTH < (a :: l).length) by
        simp only [Message.MAX_LENGTH]; omega),
      if_pos hne2]
  · intro h255 h0 hcs
    obtain ⟨hs, hg⟩ := Message.get_checksum_eval raw h255 hb
    have hne3 :
        Message.le16 ((Message.checked_region raw).sum % 65536)
          ≠ Message.checksum raw := Ne.symm hcs
    obtain ⟨a, l, rfl⟩ : ∃ a l, raw = a :: l := by
      cases raw with
      | nil => simp at h0
      | cons a l => exact ⟨a, l, rfl⟩
    have ha : a = (a :: l).length := by
      rw [List.get?_cons_zero] at h0
      exact Option.some.inj h0
    have hne2 : ¬ ((a :: l).length ≠ a) := by omega
    simp only [Message.from_bytes, List.get?_cons_zero,
      if_neg (show ¬ (Message.MAX_LENGTH < (a :: l).length) by
        simp only [Message.MAX_LENGTH]; omega),
      if_neg hne2, hg, if_pos hne3]
  · intro h255 h0 hck
    exact Message.from_bytes_ok_of raw h255 h0 hck hb

/-- Witness for C6: a tampered length byte yields `LengthMismatch` and a
tampered checksum byte yields `ChecksumMismatch`. -/
theorem c6_from_bytes_error_taxonomy_witness :
    (∀ b ∈ ([0x05, 0x03, 0x07, 0x00] : List Nat), b < 256) ∧
    Message.from_bytes [0x05, 0x03, 0x07, 0x00] = .error .lengthMismatch ∧
    Message.from_bytes [0x04, 0x03, 0x08, 0x00] = .error .checksumMismatch := by
  refine ⟨by decide, ?_, ?_⟩
  · exact (c6_from_bytes_error_taxonomy [0x05, 0x03, 0x07, 0x00]
      (by decide)).2.2.1 (by decide) (by decide) (by decide)
  · exact (c6_from_bytes_error_taxonomy [0x04, 0x03, 0x08, 0x00]
      (by decide)).2.2.2.1 (by decide) (by decide) (by decide)

/-- C7 (code bug): on a transport that replies `0xAA` after the `0x55`
sentinel, the handshake succeeds and `send` writes the frame bytes; on a
transport that replies `0xAB`, nothing beyond the `0x55` sentinel is
written — the frame is not transmitted — but the exchange dies with the
`TypeError` raised by the diagnostic `'{:#x}'.format(s)` (a `bytes` object
rejects that format spec), so the designed refusal path (`return False`,
`send` returning `0`) is unreachable. -/
theorem c7_send_handshake_evaluation :
    RR10.send ⟨[0xAA], []⟩ [0x04, 0x03, 0x07, 0x00]
      = (.ok 4, ⟨[], [0x55, 0x04, 0x03, 0x07, 0x00]⟩) ∧
    RR10.send ⟨[0xAB], []⟩ [0x04, 0x03, 0x07, 0x00]
      = (.error .typeErrorFormat, ⟨[], [0x55]⟩) :=
  ⟨rfl, rfl⟩

/-- C8 (code bug): `from_bytes` succeeds on the 3-byte sequence
`[0x03, 0x03, 0x00]` — shorter than `MIN_LENGTH = 4` — because the bytes
branch of `Message.__init__` never checks `MIN_LENGTH`. -/
theorem c8_from_bytes_accepts_short_frame :
    Message.from_bytes [0x03, 0x03, 0x00] = .ok [0x03, 0x03, 0x00] ∧
    ([0x03, 0x03, 0x00] : List Nat).length < Message.MIN_LENGTH :=
  ⟨rfl, by decide⟩

/-- C9: for every frame buffer of at most 255 bytes, the byte sum over the
checked region (at most 253 bytes, each below 256) stays below `65536`, so
`get_checksum` never raises `OverflowError` and returns exactly the
little-endian encoding of the sum mod `65536`. -/
theorem c9_checksum_never_overflows (m : Message) (hlen : m.length ≤ 255)
    (hb : ∀ b ∈ m, b < 256) :
    (Message.checked_region m).sum < 65536 ∧
    Message.get_checksum m
      = .ok (Message.le16 ((Message.checked_region m).sum % 65536)) :=
  Message.get_checksum_eval m hlen hb

/-- Witness for C9 on the version-request frame. -/
theorem c9_checksum_never_overflows_witness :
    ([0x04, 0x03, 0x07, 0x00] : List Nat).length ≤ 255 ∧
    Message.get_checksum [0x04, 0x03, 0x07, 0x00] = .ok [0x07, 0x00] := by
  refine ⟨by decide, ?_⟩
  have h := (c9_checksum_never_overflows [0x04, 0x03, 0x07, 0x00] (by decide)
    (by decide)).2
  have h2 : Message.le16
      ((Message.checked_region [0x04, 0x03, 0x07, 0x00]).sum % 65536)
      = [0x07, 0x00] := rfl
  rw [h2] at h
  exact h

/-- C10: whenever the `command` setter or the `parameters` setter raises —
unknown opcode, non-bytearray payload, over-long payload, or the
shorter-payload `ValueError` — the frame bytes after the call are identical
to the bytes before it. -/
theorem c10_failed_mutation_leaves_frame_unchanged (m : Message)
    (hlen : m.length ≤ 255) (hb : ∀ b ∈ m, b < 256) :
    (∀ c m1 e, Message.set_command m c = (m1, some e) → m1 = m) ∧
    (∀ w m1 e, (∀ b ∈ w, b < 256) →
      Message.set_parameters m (.bytearrayV w) = (m1, some e) → m1 = m) ∧
    (∀ m1 e, Message.set_parameters m .otherV = (m1, some e) → m1 = m) := by
  refine ⟨?_, ?_, ?_⟩
  · intro c m1 e h
    unfold Message.set_command at h
    split at h
    · next hc =>
      have hnone := Message.update_checksum_none (m.set 1 c)
        (by rw [List.length_set]; exact hlen)
        (by intro b hbm
            rcases List.mem_or_eq_of_mem_set hbm with hin | rfl
            · exact hb b hin
            · exact Message.commands_lt_256 _ hc)
      rw [h] at hnone
      simp at hnone
    · rw [Prod.mk.injEq] at h
      exact h.1.symm
  · intro w m1 e hw h
    simp only [Message.set_parameters] at h
    split at h
    · rw [Prod.mk.injEq] at h
      exact h.1.symm
    · next h251 =>
      split at h
      · next heq =>
        have hnone := Message.set_params_body_none m w
          (by simp only [Message.MIN_LENGTH] at heq; omega)
          (by simp only [Message.MAX_PARAMETERS] at h251; omega) hb hw
        rw [h] at hnone
        simp at hnone
      · split at h
        · next hlt =>
          have hnone := Message.set_params_body_none
            (m ++ List.replicate (w.length + Message.MIN_LENGTH - m.length) 0) w
            (by simp only [List.length_append, List.length_replicate,
                  Message.MIN_LENGTH]
                simp only [Message.MIN_LENGTH] at hlt
                omega)
            (by simp only [Message.MAX_PARAMETERS] at h251; omega)
            (by intro b hbm
                rcases List.mem_append.mp hbm with hin | hin
                · exact hb b hin
                · rw [List.eq_of_mem_replicate hin]
                  omega)
            hw
          rw [h] at hnone
          simp at hnone
        · rw [Prod.mk.injEq] at h
          exact h.1.symm
  · intro m1 e h
    simp only [Message.set_parameters] at h
    rw [Prod.mk.injEq] at h
    exact h.1.symm

/-- Witness for C10: rejecting the unregistered opcode `0x05` leaves the
version-request frame unchanged. -/
theorem c10_failed_mutation_leaves_frame_unchanged_witness :
    ([0x04, 0x03, 0x07, 0x00] : List Nat).length ≤ 255 ∧
    ([0x04, 0x03, 0x07, 0x00] : List Nat) = [0x04, 0x03, 0x07, 0x00] := by
  refine ⟨by decide, ?_⟩
  exact (c10_failed_mutation_leaves_frame_unchanged [0x04, 0x03, 0x07, 0x00]
    (by decide) (by decide)).1 0x05 [0x04, 0x03, 0x07, 0x00]
    .unknownCommand rfl
